import Mathlib

/-!
Shallow embedding of the VS1000UART Arduino driver (src/VS1000UART.h,
src/VS1000UART.cpp).

Modelling conventions:
- Machine integers (uint8_t, int) are modelled as naturals with explicit
  wrap (mod 256) exactly where the C code performs a narrowing cast whose
  wrap matters; values kept within range need no wrap.
- The C float arithmetic of the volume increment is modelled with exact
  rationals; the C library function round (half away from zero) is the
  function cround below.
- The chip is an external collaborator.  For the volume loops it is
  modelled as the ideal device of the data sheet: it holds a raw volume in
  [0, 204] and a volume step command moves it by one unit, saturating at
  the bounds, answering with the new value; the driver field _volume always
  holds the last value read back from the chip, so driver and chip state
  coincide and a single natural suffices.
- The serial stream is a list of incoming characters; readLine is modelled
  from Stream::readBytesUntil (read until line feed, buffer full at 80
  characters, or end of data; the line feed is consumed and not stored; one
  subsequent carriage return is also consumed).
- EEPROM persistence, GPIO reset mechanics and debug printing are not
  referenced by any verified statement and are omitted from the state.
-/

namespace VS1000UART

/-- Static constant _lineBufferSize from VS1000UART.cpp line 35. -/
def lineBufferSize : ℕ := 80

/-- Static constant _chipMinVolume from VS1000UART.cpp line 36. -/
def chipMinVolume : ℕ := 0

/-- Static constant _chipMaxVolume from VS1000UART.cpp line 37. -/
def chipMaxVolume : ℕ := 204

/-- The C library function round: rounds half away from zero. -/
def cround (q : ℚ) : ℤ := if 0 ≤ q then ⌊q + 1/2⌋ else ⌈q - 1/2⌉

/-- Volume configuration state of the driver (fields _minimumVolume,
_maximumVolume, _volumeIncrement, _minimumLevel, _maximumLevel of class
VS1000UART).  Levels are the VOLUMELEVEL enumerators VOLUME0..VOLUME10,
carried as naturals. -/
structure Config where
  minimumVolume : ℕ
  maximumVolume : ℕ
  volumeIncrement : ℚ
  minimumLevel : ℕ
  maximumLevel : ℕ

/-- Configuration established by the constructors (VS1000UART.cpp lines
39-65): volume bounds are the chip bounds, the increment is the volume
range over 10, levels run VOLUME0..VOLUME10. -/
def initialConfig : Config :=
  { minimumVolume := chipMinVolume
    maximumVolume := chipMaxVolume
    volumeIncrement := ((chipMaxVolume : ℚ) - (chipMinVolume : ℚ)) / 10
    minimumLevel := 0
    maximumLevel := 10 }

/-- One call to a public configuration setter (VS1000UART.cpp lines
75-100).  None of them touches _volumeIncrement. -/
inductive SetterCall where
  | setMinimumVolume (v : ℕ)
  | setMaximumVolume (v : ℕ)
  | useLowerLevelOne (b : Bool)
  | setMaximumLevel (l : ℕ)

/-- Effect of a configuration setter on the stored configuration,
translated from VS1000UART.cpp lines 75-100: each setter stores its
argument (useLowerLevelOne stores VOLUME1 or VOLUME0) and leaves
_volumeIncrement unchanged. -/
def applySetter (c : Config) : SetterCall → Config
  | .setMinimumVolume v => { c with minimumVolume := v }
  | .setMaximumVolume v => { c with maximumVolume := v }
  | .useLowerLevelOne b => { c with minimumLevel := if b then 1 else 0 }
  | .setMaximumLevel l => { c with maximumLevel := l }

/-- The volume increment computation in begin (VS1000UART.cpp line 110):
increment is recomputed from the current bounds; no other field changes. -/
def beginCfg (c : Config) : Config :=
  { c with volumeIncrement :=
      ((c.maximumVolume : ℚ) - (c.minimumVolume : ℚ)) /
        ((c.maximumLevel : ℚ) - (c.minimumLevel : ℚ)) }

/-- Configuration after construction followed by begin with no setter
calls in between. -/
def defaultConfig : Config := beginCfg initialConfig

/-- The derived-increment invariant of the specification: the stored
increment equals (maximumVolume - minimumVolume) / (maximumLevel -
minimumLevel) for the currently stored bounds. -/
def incrementInvariant (c : Config) : Prop :=
  c.volumeIncrement =
    ((c.maximumVolume : ℚ) - (c.minimumVolume : ℚ)) /
      ((c.maximumLevel : ℚ) - (c.minimumLevel : ℚ))

instance (c : Config) : Decidable (incrementInvariant c) := by
  unfold incrementInvariant; infer_instance

/-- One volume-down step (volumeDownWithoutSaving, VS1000UART.cpp lines
503-515, against the ideal chip): the chip decrements its raw volume,
saturating at the chip minimum 0, and the driver stores the value read
back. -/
def stepDown (vol : ℕ) : ℕ := vol - 1

/-- One volume-up step (volumeUpWithoutSaving, VS1000UART.cpp lines
489-501, against the ideal chip): the chip increments its raw volume,
saturating at the chip maximum 204, and the driver stores the value read
back. -/
def stepUp (vol : ℕ) : ℕ := min (vol + 1) chipMaxVolume

/-- The first loop of setVolume (VS1000UART.cpp lines 282-288): step the
volume down while the stored volume is above the target.  The loop in the
source carries no iteration bound; fuel makes the model total, and
exhausted fuel (result none) means the source loop is still running after
that many commands. -/
def downLoop : ℕ → ℕ → ℕ → Option ℕ
  | 0, vol, target => if target < vol then none else some vol
  | fuel + 1, vol, target =>
      if target < vol then downLoop fuel (stepDown vol) target else some vol

/-- The second loop of setVolume (VS1000UART.cpp lines 291-297): step the
volume up while the stored volume is below the target; same fuel
convention as downLoop. -/
def upLoop : ℕ → ℕ → ℕ → Option ℕ
  | 0, vol, target => if vol < target then none else some vol
  | fuel + 1, vol, target =>
      if vol < target then upLoop fuel (stepUp vol) target else some vol

/-- setVolume (VS1000UART.cpp lines 279-301): run the down loop, then the
up loop; the returned value is the stored volume when both loops
finished. -/
def setVolumeRun (fuel vol target : ℕ) : Option ℕ :=
  (downLoop fuel vol target).bind (fun v => upLoop fuel v target)

/-- The level clamping at the head of setVolumeLevel (VS1000UART.cpp lines
320-330): first clamp above at _maximumLevel, then below at
_minimumLevel. -/
def clampLevel (c : Config) (level : ℕ) : ℕ :=
  max c.minimumLevel (min level c.maximumLevel)

/-- The level-to-raw conversion of setVolumeLevel (VS1000UART.cpp line
334): volume = round((level - _minimumLevel) * _volumeIncrement +
_minimumVolume), on the clamped level.  The result is stored into a
uint8_t; within the configurations considered it lies in [0, 255]. -/
def levelToVolume (c : Config) (level : ℕ) : ℕ :=
  (cround (((clampLevel c level : ℚ) - (c.minimumLevel : ℚ)) *
    c.volumeIncrement + (c.minimumVolume : ℚ))).toNat

/-- setVolumeLevel (VS1000UART.cpp lines 318-339): clamp the level,
convert it to a raw volume, drive the chip there with setVolume, and
return the clamped input level together with the resulting stored
volume. -/
def setVolumeLevelV (fuel : ℕ) (c : Config) (vol level : ℕ) :
    Option (ℕ × ℕ) :=
  (setVolumeRun fuel vol (levelToVolume c level)).map
    (fun v => (clampLevel c level, v))

/-- calculateLevelFromVolume (VS1000UART.cpp lines 448-451): level =
round((volume - _minimumVolume) / _volumeIncrement + _minimumLevel), cast
to the VOLUMELEVEL enumeration. -/
def calculateLevelFromVolume (c : Config) (volume : ℕ) : ℕ :=
  (cround (((volume : ℚ) - (c.minimumVolume : ℚ)) / c.volumeIncrement +
    (c.minimumLevel : ℚ))).toNat

/-- getVolumeLevel (VS1000UART.cpp lines 358-361): the level computed from
the stored volume. -/
def getVolumeLevelV (c : Config) (vol : ℕ) : ℕ :=
  calculateLevelFromVolume c vol

/-- volumeLevelDown (VS1000UART.cpp lines 313-316): setVolumeLevel applied
to (VOLUMELEVEL)(getVolumeLevel() - 1).  The subtraction happens in int
and the cast back to the uint8_t enumeration wraps modulo 256, which is
(l + 255) mod 256 for the stored level l in [0, 255]. -/
def volumeLevelDownV (fuel : ℕ) (c : Config) (vol : ℕ) : Option (ℕ × ℕ) :=
  setVolumeLevelV fuel c vol ((getVolumeLevelV c vol + 255) % 256)

/-- Stream::readBytesUntil as used by readLine (VS1000UART.cpp line 469):
collect characters from the stream until the line feed terminator (which
is consumed but not stored), until the given number of characters has been
stored, or until no data remains (the timeout).  Returns the stored
characters and the rest of the stream. -/
def readBytesUntil : ℕ → List Char → List Char × List Char
  | _, [] => ([], [])
  | 0, c :: cs => ([], c :: cs)
  | n + 1, c :: cs =>
      if c = '\n' then ([], cs)
      else
        let p := readBytesUntil n cs
        (c :: p.1, p.2)

/-- The peek-and-consume of a carriage return at the end of readLine
(VS1000UART.cpp lines 473-476). -/
def consumeCR (s : List Char) : List Char :=
  if s.headD ' ' = '\r' then s.tail else s

/-- readLine (VS1000UART.cpp lines 467-487): read up to _lineBufferSize
characters or until a line feed, then consume one subsequent carriage
return.  Returns the line content placed in the buffer and the remaining
stream.  The byte count x returned by the source function is the length of
the first component. -/
def readLineRun (s : List Char) : List Char × List Char :=
  let p := readBytesUntil lineBufferSize s
  (p.1, consumeCR p.2)

/-- Index at which readLine writes the terminating null character
(VS1000UART.cpp line 470): the byte count returned by readBytesUntil. -/
def readLineNullIndex (s : List Char) : ℕ :=
  (readBytesUntil lineBufferSize s).1.length

/-- The character the size-parsing loop of listFiles reads at buffer
index i (VS1000UART.cpp line 200): within the line it is the line
character, at the index exactly one past the line it is the terminating
null written by readLine.  Indices further out hold bytes of older lines
that the reused buffer retains, which this model does not represent: it
is faithful only while every read stays at or before the terminator.  The
size loop starts at index 12 and stops at the first character that is not
a digit, so on lines of at least 12 characters it never passes the
terminator; theorems that quantify over lines therefore require that
length, and the concrete lines evaluated elsewhere are all long enough. -/
def bufferAt (buf : List Char) (i : ℕ) : Char := buf.getD i (Char.ofNat 0)

/-- The size accumulation loop of listFiles (VS1000UART.cpp lines
197-212), counting down the remaining indices from i: stop at the first
character that is not a digit, otherwise multiply the accumulator by ten
and add the digit.  The source obtains the digit value by reading the
decimal text at the single copied character. -/
def parseSizeAux (buf : List Char) : ℕ → ℕ → ℕ → ℕ
  | 0, _, acc => acc
  | n + 1, i, acc =>
      let c := bufferAt buf i
      if c.isDigit then parseSizeAux buf n (i + 1) (acc * 10 + (c.toNat - 48))
      else acc

/-- The file size parsed from one listing line: the loop of VS1000UART.cpp
lines 198-212 runs the index i from 12 to 21. -/
def parseSize (buf : List Char) : ℕ := parseSizeAux buf 10 12 0

/-- The file name stored from one listing line (VS1000UART.cpp lines
193-194): memcpy of 11 characters followed by a null at position 11, read
back as a C string; when the line is shorter than 11 characters the null
written by readLine terminates the string inside the copied region. -/
def recordName (buf : List Char) : List Char := buf.take 11

/-- The listing loop of listFiles (VS1000UART.cpp lines 182-216), indexed
by the remaining capacity arrayLength - numberOfFiles.  The loop condition
calls readLine first and tests the capacity second, so one further line is
read and consumed even when the capacity is exhausted; a zero-length line
ends the loop.  Returns the accumulated records and the rest of the
stream. -/
def listFilesAux : ℕ → List Char → List (List Char × ℕ) →
    List (List Char × ℕ) × List Char
  | 0, stream, acc => (acc, (readLineRun stream).2)
  | n + 1, stream, acc =>
      let p := readLineRun stream
      if p.1.length = 0 then (acc, p.2)
      else listFilesAux n p.2 (acc ++ [(recordName p.1, parseSize p.1)])

/-- listFiles (VS1000UART.cpp lines 171-219): issue the listing command,
run the listing loop, and return the number of files together with the
stored records and the rest of the stream. -/
def listFilesRun (arrayLength : ℕ) (stream : List Char) :
    ℕ × List (List Char × ℕ) × List Char :=
  let p := listFilesAux arrayLength stream []
  (p.1.length, p.1, p.2)

/-- The digit-accumulating core of the C library atoi and atol on the
buffers of this driver: parse consecutive decimal digits from the front of
the text.  All parsed fields of the claims are plain digit runs, so sign
and whitespace handling never engage; the mathematical value is the value
computed on platforms whose int holds it (on a 16-bit int the value is
further truncated, noted where it matters). -/
def atoiDigits : List Char → ℕ → ℕ
  | [], acc => acc
  | c :: cs, acc =>
      if c.isDigit then atoiDigits cs (acc * 10 + (c.toNat - 48)) else acc

/-- atoi and atol applied to a buffer: parse the leading digit run. -/
def atoiN (s : List Char) : ℕ := atoiDigits s 0

/-- playTime (VS1000UART.cpp lines 384-404): send the time query, read the
response line; when it has exactly 12 characters write current = atoi of
the whole buffer and total = atoi of the buffer from position 6; otherwise
send the corrective blank command, read its response, and fail writing
nothing.  The first component none models returning false with neither
output written; the corrective response stream is the second argument
because the send flushes whatever was pending. -/
def playTimeRun (response corrective : List Char) :
    Option (ℕ × ℕ) × List Char :=
  let p := readLineRun response
  if p.1.length = 12 then (some (atoiN p.1, atoiN (p.1.drop 6)), p.2)
  else (none, (readLineRun corrective).2)

/-- fileSize (VS1000UART.cpp lines 406-419): send the size query and test
the length of the line buffer.  The source never calls readLine here, so
the test runs on the line buffer content left over from the previous
command and the response stream is returned unconsumed; on the length-22
path remain = atol of the whole buffer and total = atol of the buffer from
position 11. -/
def fileSizeRun (lineBuffer : List Char) (stream : List Char) :
    Option (ℕ × ℕ) × List Char × List Char :=
  if lineBuffer.length = 22 then
    (some (atoiN lineBuffer, atoiN (lineBuffer.drop 11)), lineBuffer, stream)
  else (none, lineBuffer, stream)

/-- Configuration with a volume span smaller than the level span, reached
through the public interface by setMaximumVolume(5) followed by begin():
the increment becomes one half. -/
def exCfg : Config :=
  beginCfg { minimumVolume := 0, maximumVolume := 5, volumeIncrement := 0,
             minimumLevel := 0, maximumLevel := 10 }

/-- The example listing response of the specification: one record line
followed by the empty terminating line. -/
def exampleListing : List Char := ("04LATCHWAV\t0000051892\n\n").toList

/-- A record line the listing loop accepts, consumes in one readLine
call, and parses within the faithful region of the buffer model:
nonempty, shorter than the line buffer, free of line feeds, not starting
with a carriage return (so the previous read does not swallow its first
character), and at least 12 characters long, so that the size loop
starting at index 12 stays at or before the null terminator and never
reads the stale bytes of earlier lines that the reused buffer retains
(device records are 11 name characters, a tab and the size digits, hence
always at least 13 characters). -/
def goodLine (l : List Char) : Prop :=
  l ≠ [] ∧ l.length < lineBufferSize ∧ '\n' ∉ l ∧ l.headD ' ' ≠ '\r' ∧
    12 ≤ l.length

instance (l : List Char) : Decidable (goodLine l) := by
  unfold goodLine; infer_instance

/-- A chip listing transcript: each record line terminated by a line feed,
then the empty terminating line, then whatever the chip sends later. -/
def encodeListing (recs : List (List Char)) (rest : List Char) : List Char :=
  recs.foldr (fun l acc => l ++ '\n' :: acc) ('\n' :: rest)

/-- A concrete well-formed record line for instantiations. -/
def exLineA : List Char := ("04LATCHWAV\t0000051892").toList

/-- A second concrete well-formed record line for instantiations. -/
def exLineB : List Char := ("T01NEXT OGG\t0000108918").toList

/-! Helper lemmas about the rounding function. -/

theorem cround_of_nonneg (q : ℚ) (h : 0 ≤ q) : cround q = ⌊q + 1/2⌋ :=
  if_pos h

theorem cround_nonneg (q : ℚ) (h : 0 ≤ q) : 0 ≤ cround q := by
  rw [cround_of_nonneg q h]
  exact Int.le_floor.mpr (by push_cast; linarith)

theorem cround_le_add_half (q : ℚ) (h : 0 ≤ q) : (cround q : ℚ) ≤ q + 1/2 := by
  rw [cround_of_nonneg q h]
  exact Int.floor_le _

theorem sub_half_lt_cround (q : ℚ) (h : 0 ≤ q) : q - 1/2 < (cround q : ℚ) := by
  rw [cround_of_nonneg q h]
  have := Int.lt_floor_add_one (q + 1/2)
  linarith

theorem cround_eq_of_bounds (n : ℤ) (q : ℚ) (hn : 0 ≤ n)
    (h1 : (n : ℚ) - 1/2 < q) (h2 : q < (n : ℚ) + 1/2) : cround q = n := by
  rcases le_or_lt 0 q with hq | hq
  · rw [cround_of_nonneg q hq, Int.floor_eq_iff]
    constructor
    · linarith
    · linarith
  · have hn0 : n = 0 := by
      have h3 : (n : ℚ) < 1/2 := by linarith
      have h4 : (n : ℚ) < 1 := by linarith
      have h5 : n < 1 := by exact_mod_cast h4
      omega
    subst hn0
    rw [cround, if_neg (not_le.mpr hq), Int.ceil_eq_iff]
    constructor
    · push_cast; linarith
    · push_cast; linarith

theorem cround_natCast (n : ℕ) : cround ((n : ℚ)) = (n : ℤ) := by
  apply cround_eq_of_bounds (n : ℤ) ((n : ℚ)) (by positivity)
  · norm_num
  · norm_num

/-! Helper lemmas about the volume stepping loops. -/

theorem downLoop_of_le (fuel vol target : ℕ) (h : vol ≤ target) :
    downLoop fuel vol target = some vol := by
  cases fuel with
  | zero => simp [downLoop, Nat.not_lt.mpr h]
  | succ n => simp [downLoop, Nat.not_lt.mpr h]

theorem downLoop_converge (fuel : ℕ) : ∀ vol target : ℕ, target ≤ vol →
    vol - target ≤ fuel → downLoop fuel vol target = some target := by
  induction fuel with
  | zero =>
    intro vol target h1 h2
    have he : vol = target := by omega
    subst he
    simp [downLoop]
  | succ n ih =>
    intro vol target h1 h2
    rcases Nat.eq_or_lt_of_le h1 with he | hlt
    · subst he
      simp [downLoop]
    · simp only [downLoop, if_pos hlt]
      exact ih (stepDown vol) target (by simp [stepDown]; omega)
        (by simp [stepDown]; omega)

theorem upLoop_of_ge (fuel vol target : ℕ) (h : target ≤ vol) :
    upLoop fuel vol target = some vol := by
  cases fuel with
  | zero => simp [upLoop, Nat.not_lt.mpr h]
  | succ n => simp [upLoop, Nat.not_lt.mpr h]

theorem upLoop_converge (fuel : ℕ) : ∀ vol target : ℕ,
    target ≤ chipMaxVolume → vol ≤ target → target - vol ≤ fuel →
    upLoop fuel vol target = some target := by
  induction fuel with
  | zero =>
    intro vol target hc h1 h2
    have he : vol = target := by omega
    subst he
    simp [upLoop]
  | succ n ih =>
    intro vol target hc h1 h2
    rcases Nat.eq_or_lt_of_le h1 with he | hlt
    · subst he
      simp [upLoop]
    · simp only [upLoop, if_pos hlt]
      have hs : stepUp vol = vol + 1 := by
        simp only [stepUp, chipMaxVolume] at *
        omega
      rw [hs]
      exact ih (vol + 1) target hc (by omega) (by omega)

theorem setVolumeRun_converge (fuel vol target : ℕ)
    (hc : target ≤ chipMaxVolume) (h1 : vol - target ≤ fuel)
    (h2 : target - vol ≤ fuel) :
    setVolumeRun fuel vol target = some target := by
  rcases le_or_lt vol target with h | h
  · rw [setVolumeRun, downLoop_of_le fuel vol target h, Option.some_bind]
    exact upLoop_converge fuel vol target hc h h2
  · rw [setVolumeRun, downLoop_converge fuel vol target h.le h1,
      Option.some_bind]
    exact upLoop_of_ge fuel target target le_rfl

theorem upLoop_none_of_target_above_chip (fuel : ℕ) : ∀ vol target : ℕ,
    vol ≤ chipMaxVolume → chipMaxVolume < target →
    upLoop fuel vol target = none := by
  induction fuel with
  | zero =>
    intro vol target hv ht
    simp only [upLoop, if_pos (by omega : vol < target)]
  | succ n ih =>
    intro vol target hv ht
    simp only [upLoop, if_pos (by omega : vol < target)]
    exact ih (stepUp vol) target (by simp [stepUp]) ht

/-! Helper lemmas about line framing. -/

theorem readBytesUntil_line (fuel : ℕ) : ∀ l t : List Char, '\n' ∉ l →
    l.length < fuel → readBytesUntil fuel (l ++ '\n' :: t) = (l, t) := by
  induction fuel with
  | zero =>
    intro l t _ hl
    exact absurd hl (Nat.not_lt_zero _)
  | succ n ih =>
    intro l t hn hl
    cases l with
    | nil => simp [readBytesUntil]
    | cons c cs =>
      have hc : ¬ c = '\n' := by
        intro h
        exact hn (by simp [h])
      simp only [List.cons_append, readBytesUntil, if_neg hc, List.append_eq]
      rw [ih cs t (fun h => hn (by simp [h])) (by simpa using hl)]

theorem readLineRun_line (l t : List Char) (hg : goodLine l)
    (ht : t.headD ' ' ≠ '\r') : readLineRun (l ++ '\n' :: t) = (l, t) := by
  obtain ⟨h1, h2, h3, h4, _⟩ := hg
  rw [readLineRun, readBytesUntil_line lineBufferSize l t h3 h2]
  unfold consumeCR
  rw [if_neg ht]

theorem readLineRun_empty_line (t : List Char) :
    (readLineRun ('\n' :: t)).1 = [] := by
  have h := readBytesUntil_line lineBufferSize [] t (by simp)
    (by simp [lineBufferSize])
  simp only [List.nil_append] at h
  simp [readLineRun, h]

theorem encodeListing_headD (recs : List (List Char)) (rest : List Char)
    (hg : ∀ l ∈ recs, goodLine l) :
    (encodeListing recs rest).headD ' ' ≠ '\r' := by
  cases recs with
  | nil => simp [encodeListing]
  | cons l ls =>
    have hl := hg l (by simp)
    obtain ⟨h1, _, _, h4, _⟩ := hl
    cases l with
    | nil => exact absurd rfl h1
    | cons c cs =>
      simpa [encodeListing] using h4

theorem listFilesAux_encoded (recs : List (List Char)) :
    ∀ acc : List (List Char × ℕ), ∀ rest : List Char,
    (∀ l ∈ recs, goodLine l) → rest.headD ' ' ≠ '\r' →
    listFilesAux recs.length (encodeListing recs rest) acc =
      (acc ++ recs.map (fun l => (recordName l, parseSize l)), rest) := by
  induction recs with
  | nil =>
    intro acc rest _ hr
    have h : readLineRun ('\n' :: rest) = ([], rest) := by
      have hb := readBytesUntil_line lineBufferSize [] rest (by simp)
        (by simp [lineBufferSize])
      simp only [List.nil_append] at hb
      rw [readLineRun, hb]
      unfold consumeCR
      rw [if_neg hr]
    simp [encodeListing, listFilesAux, h]
  | cons l ls ih =>
    intro acc rest hg hr
    have hl := hg l (by simp)
    have henc : encodeListing (l :: ls) rest =
        l ++ '\n' :: encodeListing ls rest := rfl
    have hrl : readLineRun (l ++ '\n' :: encodeListing ls rest) =
        (l, encodeListing ls rest) :=
      readLineRun_line l _ hl
        (encodeListing_headD ls rest (fun x hx => hg x (by simp [hx])))
    have hne : ¬ l.length = 0 := by
      cases l with
      | nil => exact absurd rfl hl.1
      | cons c cs => simp
    rw [henc]
    simp only [List.length_cons, listFilesAux, hrl, if_neg hne]
    rw [ih (acc ++ [(recordName l, parseSize l)]) rest
      (fun x hx => hg x (by simp [hx])) hr]
    simp

/-! Concrete conversion values used by several statements below. -/

theorem getVolumeLevelV_default_zero : getVolumeLevelV defaultConfig 0 = 0 := by
  norm_num [getVolumeLevelV, calculateLevelFromVolume, cround, defaultConfig,
    beginCfg, initialConfig, chipMaxVolume, chipMinVolume]

theorem levelToVolume_default_wrap : levelToVolume defaultConfig 255 = 204 := by
  norm_num [levelToVolume, clampLevel, cround, defaultConfig, beginCfg,
    initialConfig, chipMaxVolume, chipMinVolume, Int.floor_eq_iff]
  all_goals decide

theorem levelToVolume_default_five : levelToVolume defaultConfig 5 = 102 := by
  norm_num [levelToVolume, clampLevel, cround, defaultConfig, beginCfg,
    initialConfig, chipMaxVolume, chipMinVolume, Int.floor_eq_iff]
  all_goals decide

theorem levelToVolume_exCfg_one : levelToVolume exCfg 1 = 1 := by
  norm_num [levelToVolume, clampLevel, cround, exCfg, beginCfg,
    Int.floor_eq_iff]

theorem getVolumeLevelV_exCfg_one : getVolumeLevelV exCfg 1 = 2 := by
  norm_num [getVolumeLevelV, calculateLevelFromVolume, cround, exCfg, beginCfg,
    Int.floor_eq_iff]
  all_goals decide

/-- Claim C2 (code defect): the claim states that setVolume issues at most
(maxRaw - minRaw) / increment plus a fixed margin of step commands and
reports a DeviceDesync failure when the target is not reached.  The source
loop carries no bound and setVolume has no failure result: with the chip
saturated at its maximum 204 and target volume 205, the up loop of
setVolume is still running after any number of step commands. -/
theorem setVolume_no_iteration_bound (fuel : ℕ) :
    setVolumeRun fuel 204 205 = none := by
  rw [setVolumeRun, downLoop_of_le fuel 204 205 (by omega), Option.some_bind]
  exact upLoop_none_of_target_above_chip fuel 204 205 (by decide) (by decide)

/-- Claim C3 (code defect): the claim states that fileSize reads the
response to the size query and succeeds exactly on a 22-character line.
The source never calls readLine in fileSize: on a fresh line buffer with a
well-formed 22-digit response line waiting on the stream, the response
line itself has exactly 22 characters, yet the call fails and leaves the
response unread on the stream. -/
theorem fileSize_ignores_response :
    (readLineRun (("0000000012300000000456\n").toList)).1.length = 22 ∧
      fileSizeRun [] (("0000000012300000000456\n").toList) =
        (none, [], ("0000000012300000000456\n").toList) := by
  decide

/-- Claim C4 (code defect): on the 12-character response 001234005678 the
claim states current = 1234 (the first six digits).  The source computes
current = atoi of the whole line, which parses all twelve digits and
yields 1234005678, not 1234; total = 5678 and the failure of a
21-character response with no outputs written hold as claimed. -/
theorem playTime_current_takes_all_digits :
    playTimeRun (("001234005678\n").toList) [] =
        (some (1234005678, 5678), []) ∧
      (1234005678 : ℕ) ≠ 1234 ∧
      (playTimeRun (("000000000000000000000\n").toList)
        (("\n").toList)).1 = none := by
  decide

/-- Claim C5 counterexample: with a volume span smaller than the level
span (bounds 0..5 over levels 0..10, increment one half), setVolumeLevel(1)
drives the raw volume to 1 and returns level 1, although the level
recomputed from the resulting raw volume is 2: the return value is the
clamped input, not the recomputed level. -/
theorem setVolumeLevel_does_not_return_recomputed :
    setVolumeLevelV 512 exCfg 0 1 = some (1, 1) ∧
      getVolumeLevelV exCfg 1 = 2 := by
  refine ⟨?_, getVolumeLevelV_exCfg_one⟩
  rw [setVolumeLevelV, levelToVolume_exCfg_one]
  have h3 : setVolumeRun 512 0 1 = some 1 := by decide
  rw [h3]
  decide

/-- Claim C5 (amended): setVolumeLevel clamps its argument into
[minimumLevel, maximumLevel], drives the chip toward round((level -
minimumLevel) x increment + minimumVolume), and returns the clamped input
level together with that raw volume (not the level recomputed from the
resulting raw volume). -/
theorem setVolumeLevel_returns_clamped_input (fuel : ℕ) (c : Config)
    (vol level : ℕ) (ht : levelToVolume c level ≤ chipMaxVolume)
    (h1 : vol - levelToVolume c level ≤ fuel)
    (h2 : levelToVolume c level - vol ≤ fuel) :
    setVolumeLevelV fuel c vol level =
      some (clampLevel c level, levelToVolume c level) := by
  rw [setVolumeLevelV, setVolumeRun_converge fuel vol _ ht h1 h2]
  rfl

/-- Witness for the amended claim C5 at the default configuration, volume
0, requested level 5. -/
theorem setVolumeLevel_returns_clamped_input_witness :
    setVolumeLevelV 512 defaultConfig 0 5 =
      some (clampLevel defaultConfig 5, levelToVolume defaultConfig 5) :=
  setVolumeLevel_returns_clamped_input 512 defaultConfig 0 5
    (by rw [levelToVolume_default_five]; decide)
    (by simp)
    (by rw [levelToVolume_default_five]; decide)

/-- Claim C6 counterexample: on the specification's example line the
stored file name is not the bare string 04LATCHWAV: that name is only ten
characters long, and the eleven copied characters include the tab. -/
theorem listFiles_example_name_not_bare :
    (listFilesRun 25 exampleListing).2.1 ≠
      [((("04LATCHWAV").toList), 51892)] := by
  decide

/-- Claim C6 (amended): listFiles parses the example listing line into one
record whose name is the first eleven characters 04LATCHWAV followed by
the tab, and whose size is 51892 accumulated as size x 10 + digit over the
characters from position 12 until the first one that is not a digit. -/
theorem listFiles_example_parses_with_tab :
    listFilesRun 25 exampleListing =
      (1, [((("04LATCHWAV\t").toList), 51892)], []) := by
  decide

/-- Claim C7: listFiles on an empty listing (the first line read is
zero-length) returns count 0 with no record stored, and with exactly
arrayLength records available it returns count arrayLength, stores exactly
those records, and consumes only those record lines plus the empty
terminating line, leaving the rest of the stream unread. -/
theorem listFiles_empty_and_capacity (arrayLength n : ℕ)
    (recs : List (List Char)) (rest s : List Char)
    (hg : ∀ l ∈ recs, goodLine l) (hlen : recs.length = arrayLength)
    (hr : rest.headD ' ' ≠ '\r') :
    listFilesRun arrayLength (encodeListing recs rest) =
        (arrayLength, recs.map (fun l => (recordName l, parseSize l)), rest) ∧
      (listFilesRun n ('\n' :: s)).1 = 0 ∧
      (listFilesRun n ('\n' :: s)).2.1 = [] := by
  refine ⟨?_, ?_, ?_⟩
  · subst hlen
    simp only [listFilesRun]
    rw [listFilesAux_encoded recs [] rest hg hr]
    simp
  · have h0 := readLineRun_empty_line s
    cases n with
    | zero => simp [listFilesRun, listFilesAux]
    | succ m => simp [listFilesRun, listFilesAux, h0]
  · have h0 := readLineRun_empty_line s
    cases n with
    | zero => simp [listFilesRun, listFilesAux]
    | succ m => simp [listFilesRun, listFilesAux, h0]

/-- Witness for claim C7 with two concrete record lines, capacity two, and
one pending character after the terminating line. -/
theorem listFiles_empty_and_capacity_witness :
    listFilesRun 2 (encodeListing [exLineA, exLineB] [' ']) =
        (2, [exLineA, exLineB].map (fun l => (recordName l, parseSize l)),
          [' ']) ∧
      (listFilesRun 7 ('\n' :: [' '])).1 = 0 ∧
      (listFilesRun 7 ('\n' :: [' '])).2.1 = [] :=
  listFiles_empty_and_capacity 2 7 [exLineA, exLineB] [' '] [' ']
    (by decide) (by decide) (by decide)

/-- Claim C8 counterexample: after begin, a further setMaximumVolume call
changes the bounds but leaves the stored increment stale, so the stored
increment no longer equals (maximumVolume - minimumVolume) /
(maximumLevel - minimumLevel). -/
theorem increment_not_recomputed_by_setter :
    ¬ incrementInvariant
      (applySetter defaultConfig (SetterCall.setMaximumVolume 104)) := by
  norm_num [incrementInvariant, applySetter, defaultConfig, beginCfg,
    initialConfig, chipMaxVolume, chipMinVolume]

/-- Claim C8 (amended): the increment is recomputed from the current
bounds only by begin: after any sequence of configuration setter calls
followed by begin, the stored increment equals (maximumVolume -
minimumVolume) / (maximumLevel - minimumLevel) for the bounds then in
force; the setters themselves never update it. -/
theorem increment_invariant_after_begin (ops : List SetterCall) :
    incrementInvariant (beginCfg (ops.foldl applySetter initialConfig)) :=
  rfl

set_option maxRecDepth 8000 in
/-- Claim C9 (code defect): in the default configuration at volume 0 the
current level equals the configured minimum level 0, and volumeLevelDown
then computes (VOLUMELEVEL)(0 - 1) = 255, which setVolumeLevel clamps to
the maximum level 10, driving the raw volume up to 204: the call increases
the level to the maximum instead of keeping it at the minimum. -/
theorem volumeLevelDown_at_minimum_jumps_to_maximum :
    getVolumeLevelV defaultConfig 0 = 0 ∧
      volumeLevelDownV 512 defaultConfig 0 = some (10, 204) := by
  refine ⟨getVolumeLevelV_default_zero, ?_⟩
  rw [volumeLevelDownV, setVolumeLevelV, getVolumeLevelV_default_zero,
    levelToVolume_default_wrap]
  decide

/-- Claim C10 (code defect): when the transport delivers a full buffer of
80 characters with no line feed, readBytesUntil returns 80 and readLine
writes its terminating null at index 80, which is not strictly below the
line buffer capacity of 80 (the buffer holds indices 0 through 79). -/
theorem readLine_null_index_reaches_capacity :
    readLineNullIndex (List.replicate lineBufferSize 'a') = lineBufferSize ∧
      ¬ readLineNullIndex (List.replicate lineBufferSize 'a') <
        lineBufferSize := by
  decide

/-- Claim C1 counterexample: with volume bounds 0..5 over levels 0..10
(increment one half, a configuration reachable through setMaximumVolume
followed by begin), setVolumeLevel(1) followed by getVolumeLevel does not
yield 1: the conversions do not round-trip for every configuration. -/
theorem roundtrip_fails_for_small_span :
    (setVolumeLevelV 512 exCfg 0 1).map
      (fun p => getVolumeLevelV exCfg p.2) ≠ some 1 := by
  rw [setVolumeLevelV, levelToVolume_exCfg_one]
  have h3 : setVolumeRun 512 0 1 = some 1 := by decide
  rw [h3]
  simp [getVolumeLevelV_exCfg_one]

/-- Claim C1 (amended): for every configuration whose increment invariant
holds with a volume span at least as large as the level span (so the
increment is at least one) and within the chip range, and for every level
L between the configured bounds, setVolumeLevel(L) followed by
getVolumeLevel yields L: with such an increment the two conversions use
the same increment and rounding rule and round-trip exactly. -/
theorem setVolumeLevel_getVolumeLevel_roundtrip (c : Config) (vol L : ℕ)
    (hinv : incrementInvariant c)
    (hLlt : c.minimumLevel < c.maximumLevel)
    (hVle : c.minimumVolume ≤ c.maximumVolume)
    (hchip : c.maximumVolume ≤ chipMaxVolume)
    (hspan : c.maximumLevel - c.minimumLevel ≤
      c.maximumVolume - c.minimumVolume)
    (hlo : c.minimumLevel ≤ L) (hhi : L ≤ c.maximumLevel)
    (hvol : vol ≤ chipMaxVolume) :
    (setVolumeLevelV 512 c vol L).map (fun p => getVolumeLevelV c p.2) =
      some L := by
  have hcm : chipMaxVolume = 204 := rfl
  have hclamp : clampLevel c L = L := by
    unfold clampLevel
    omega
  set inc := c.volumeIncrement with hinc_def
  have hdq : (0 : ℚ) < (c.maximumLevel : ℚ) - (c.minimumLevel : ℚ) := by
    have h := (Nat.cast_lt (α := ℚ)).mpr hLlt
    linarith
  have hnum : (c.maximumLevel : ℚ) - (c.minimumLevel : ℚ) ≤
      (c.maximumVolume : ℚ) - (c.minimumVolume : ℚ) := by
    have h := (Nat.cast_le (α := ℚ)).mpr hspan
    rwa [Nat.cast_sub hLlt.le, Nat.cast_sub hVle] at h
  have hinc1 : (1 : ℚ) ≤ inc := by
    rw [hinc_def, hinv, le_div_iff₀ hdq]
    linarith
  have hinc0 : (0 : ℚ) < inc := lt_of_lt_of_le one_pos hinc1
  have hincne : inc ≠ 0 := ne_of_gt hinc0
  set x : ℚ :=
    ((L : ℚ) - (c.minimumLevel : ℚ)) * inc + (c.minimumVolume : ℚ)
    with hx_def
  have hdL : (0 : ℚ) ≤ (L : ℚ) - (c.minimumLevel : ℚ) := by
    have h := (Nat.cast_le (α := ℚ)).mpr hlo
    linarith
  have hx0 : (0 : ℚ) ≤ x := by
    have hm : (0 : ℚ) ≤ (c.minimumVolume : ℚ) := by positivity
    have h := mul_nonneg hdL (le_of_lt hinc0)
    rw [hx_def]
    linarith
  have ht0 : 0 ≤ cround x := cround_nonneg x hx0
  have hxmax : x ≤ (c.maximumVolume : ℚ) := by
    have hstep : (L : ℚ) - (c.minimumLevel : ℚ) ≤
        (c.maximumLevel : ℚ) - (c.minimumLevel : ℚ) := by
      have h := (Nat.cast_le (α := ℚ)).mpr hhi
      linarith
    have hmul : ((L : ℚ) - (c.minimumLevel : ℚ)) * inc ≤
        ((c.maximumLevel : ℚ) - (c.minimumLevel : ℚ)) * inc :=
      mul_le_mul_of_nonneg_right hstep (le_of_lt hinc0)
    have hcancel : ((c.maximumLevel : ℚ) - (c.minimumLevel : ℚ)) * inc =
        (c.maximumVolume : ℚ) - (c.minimumVolume : ℚ) := by
      rw [hinc_def, hinv]
      field_simp
    rw [hx_def]
    linarith
  have htmaxZ : cround x ≤ (c.maximumVolume : ℤ) := by
    have h1 : (cround x : ℚ) ≤ x + 1/2 := cround_le_add_half x hx0
    have h2 : ((cround x : ℤ) : ℚ) < ((c.maximumVolume : ℤ) : ℚ) + 1 := by
      push_cast
      linarith
    have h3 : cround x < (c.maximumVolume : ℤ) + 1 := by exact_mod_cast h2
    omega
  set tn : ℕ := (cround x).toNat with htn_def
  have htnZ : (tn : ℤ) = cround x := Int.toNat_of_nonneg ht0
  have htn204 : tn ≤ chipMaxVolume := by
    have h4 : (tn : ℤ) ≤ (c.maximumVolume : ℤ) := by
      rw [htnZ]
      exact htmaxZ
    have h5 : tn ≤ c.maximumVolume := by exact_mod_cast h4
    omega
  have hlev : levelToVolume c L = tn := by
    rw [htn_def, hx_def, hinc_def, levelToVolume, hclamp]
  have hrun : setVolumeRun 512 vol tn = some tn :=
    setVolumeRun_converge 512 vol tn htn204 (by omega) (by omega)
  have htnq : (tn : ℚ) = ((cround x : ℤ) : ℚ) := by exact_mod_cast htnZ
  have heub : ((cround x : ℤ) : ℚ) - x ≤ 1/2 := by
    have h := cround_le_add_half x hx0
    linarith
  have helb : -(1/2 : ℚ) < ((cround x : ℤ) : ℚ) - x := by
    have h := sub_half_lt_cround x hx0
    linarith
  have hdivb : -(1/2 : ℚ) < (((cround x : ℤ) : ℚ) - x) / inc ∧
      (((cround x : ℤ) : ℚ) - x) / inc < 1/2 := by
    rcases eq_or_lt_of_le hinc1 with he1 | hgt
    · have hxnat :
          x = ((L - c.minimumLevel + c.minimumVolume : ℕ) : ℚ) := by
        rw [hx_def, ← he1, mul_one]
        push_cast [Nat.cast_sub hlo]
        ring
      have he0 : ((cround x : ℤ) : ℚ) - x = 0 := by
        rw [hxnat, cround_natCast]
        push_cast
        ring
      rw [he0, zero_div]
      norm_num
    · constructor
      · have hstep : (-(1/2) : ℚ) / inc <
            (((cround x : ℤ) : ℚ) - x) / inc :=
          (div_lt_div_iff_of_pos_right hinc0).mpr helb
        have hmono : (-(1/2) : ℚ) ≤ (-(1/2) : ℚ) / inc := by
          rw [neg_div]
          have h6 : (1/2 : ℚ) / inc ≤ 1/2 := div_le_self (by norm_num) hinc1
          linarith
        linarith
      · have hstep : (((cround x : ℤ) : ℚ) - x) / inc ≤ (1/2 : ℚ) / inc :=
          (div_le_div_iff_of_pos_right hinc0).mpr heub
        have h7 : (1/2 : ℚ) / inc < 1/2 := by
          rw [div_lt_iff₀ hinc0]
          nlinarith
        linarith
  have hkey : ((tn : ℚ) - (c.minimumVolume : ℚ)) / inc +
      (c.minimumLevel : ℚ) =
      (L : ℚ) + (((cround x : ℤ) : ℚ) - x) / inc := by
    have hsplit : ((cround x : ℤ) : ℚ) - (c.minimumVolume : ℚ) =
        (((cround x : ℤ) : ℚ) - x) +
          ((L : ℚ) - (c.minimumLevel : ℚ)) * inc := by
      rw [hx_def]
      ring
    rw [htnq, hsplit, add_div, mul_div_assoc, div_self hincne, mul_one]
    ring
  have hcr : cround (((tn : ℚ) - (c.minimumVolume : ℚ)) / inc +
      (c.minimumLevel : ℚ)) = (L : ℤ) := by
    apply cround_eq_of_bounds (L : ℤ) _ (by positivity)
    · rw [hkey]
      push_cast
      linarith [hdivb.1]
    · rw [hkey]
      push_cast
      linarith [hdivb.2]
  have hback : getVolumeLevelV c tn = L := by
    rw [getVolumeLevelV, calculateLevelFromVolume, ← hinc_def, hcr]
    exact Int.toNat_ofNat L
  rw [setVolumeLevelV, hlev, hrun]
  simp [hback]

/-- Witness for the amended claim C1 at the default configuration, volume
0, level 5. -/
theorem setVolumeLevel_getVolumeLevel_roundtrip_witness :
    (setVolumeLevelV 512 defaultConfig 0 5).map
      (fun p => getVolumeLevelV defaultConfig p.2) = some 5 :=
  setVolumeLevel_getVolumeLevel_roundtrip defaultConfig 0 5 rfl (by decide)
    (by decide) (by decide) (by decide) (by decide) (by decide) (by decide)

end VS1000UART
